import Mathlib

/-!
Verification of the TOMPEI-CMMD annotation viewer (`viewer.py`) against its
natural-language specification.  The Python source is shallowly embedded:
each Python function the claims mention becomes a Lean definition over an
explicit model of its inputs (parsed JSON values become structures, file
systems become lists of entries, fallible operations become `Except`).
String helpers are re-implemented over `List Char` so that all definitions
reduce in the kernel.
-/

deriving instance DecidableEq for Except

/-- Python `str.strip` whitespace test (ASCII subset actually exercised). -/
def isPyWs (c : Char) : Bool :=
  c = ' ' || c = '\t' || c = '\n' || c = '\r' || c = '\x0b' || c = '\x0c'

/-- Python `str.strip()`: drop whitespace from both ends. -/
def pyStrip (s : String) : String :=
  ⟨((s.data.dropWhile isPyWs).reverse.dropWhile isPyWs).reverse⟩

/-- Python slicing `s[:n]`. -/
def pyTake (s : String) (n : Nat) : String := ⟨s.data.take n⟩

/-- Python `str.startswith`. -/
def pyStartsWith (s pre : String) : Bool := pre.data.isPrefixOf s.data

/-- Python `str.endswith`. -/
def pyEndsWith (s suf : String) : Bool := suf.data.isSuffixOf s.data

/-- Python `str.lower` (ASCII). -/
def pyLower (s : String) : String := ⟨s.data.map Char.toLower⟩

/-- Python substring test `needle in haystack`. -/
def pyContains (haystack needle : String) : Bool :=
  decide (needle.data <:+: haystack.data)

/-- Python `os.path.basename`: the part of the path after the last slash. -/
def basename (p : String) : String :=
  ⟨p.data.foldl (fun acc c => if c = '/' then [] else acc ++ [c]) []⟩

/-- One element of the JSON array inside an annotation file, as described in
the external-interface section: an optional `cgPoints` list of numeric x/y
points, an optional `label`, an optional `color`.  A missing key is `none`. -/
structure AnnotationObj where
  cgPoints : Option (List (Int × Int))
  label : Option String
  color : Option String
deriving DecidableEq, Repr

/-- One record produced by `load_annotations` in `viewer.py`. -/
structure AnnotationRecord where
  x_coords : List Int
  y_coords : List Int
  label : String
  color : String
deriving DecidableEq, Repr

/-- The record `load_annotations` builds for one object that has `cgPoints`:
`x_coords`/`y_coords` are the x/y fields in order, the label is
`annotation.get('label', 'Unknown').strip()`, the color is
`annotation.get('color', '#FF0000')`. -/
def mkRecord (a : AnnotationObj) (pts : List (Int × Int)) : AnnotationRecord :=
  { x_coords := pts.map Prod.fst
    y_coords := pts.map Prod.snd
    label := pyStrip (a.label.getD "Unknown")
    color := a.color.getD "#FF0000" }

/-- The loop body of `load_annotations`: one record per object containing a
`cgPoints` list, in input order; objects without `cgPoints` are skipped. -/
def parse_records (objs : List AnnotationObj) : List AnnotationRecord :=
  objs.filterMap fun a => a.cgPoints.map (mkRecord a)

/-- `load_annotations` in `viewer.py`.  Its input here is the outcome of
opening and `json.load`-ing the file at `json_path`: `Except.error e` when
any I/O or parse error is raised.  It returns the `st.warning` messages it
emits together with the record list; the `try`/`except` turns any error into
one warning and an empty list. -/
def load_annotations (parsed : Except String (List AnnotationObj)) :
    List String × List AnnotationRecord :=
  match parsed with
  | Except.error e => (["Error reading annotation file: " ++ e], [])
  | Except.ok objs => ([], parse_records objs)

/-- Fill/edge opacity used by `ax.fill(..., alpha=0.2)` and the legend
patches in `viewer.py`: 0.2 = 1/5, written as a literal reduced fraction so
that equality on it evaluates in the kernel. -/
def fillAlpha : Rat := ⟨1, 5, by decide, Nat.coprime_one_left 5⟩

/-- One polygon actually drawn on the axes: the (closed) coordinate lists
passed to `ax.plot`/`ax.fill`, the record color, `linewidth=2`, and the fill
opacity. -/
structure DrawnPolygon where
  xs : List Int
  ys : List Int
  color : String
  linewidth : Nat
  alpha : Rat
deriving DecidableEq, Repr

/-- One `matplotlib.patches.Patch` appended to `legend_elements`. -/
structure LegendEntry where
  facecolor : String
  alpha : Rat
  edgecolor : String
  label : String
deriving DecidableEq, Repr

/-- The observable outcome of `display_dicom_with_annotation`: the drawn
polygons, the legend entries, and the warnings emitted while loading. -/
structure RenderResult where
  polygons : List DrawnPolygon
  legend : List LegendEntry
  warnings : List String
deriving DecidableEq, Repr

/-- Python `dict.get(label, default)` over an association-list model of a
dict (keys unique; first binding wins). -/
def dictGet (m : List (String × Bool)) (k : String) (dflt : Bool) : Bool :=
  match m.lookup k with
  | some b => b
  | none => dflt

/-- The legend patch built for one record: `Patch(facecolor=color, alpha=0.2,
edgecolor=color, label=label)`. -/
def legendOf (r : AnnotationRecord) : LegendEntry :=
  ⟨r.color, fillAlpha, r.color, r.label⟩

/-- The annotation loop of `display_dicom_with_annotation`: for each record,
if `show_annotations.get(label, True)` the polygon is closed by appending its
first point (`x_coords[0]` raises `IndexError` on an empty list, which
propagates out of the function) and drawn with `linewidth=2` and fill
`alpha=0.2`; a legend patch is appended for every record regardless of
visibility. -/
def drawAnnotations (sa : List (String × Bool)) :
    List AnnotationRecord → Except String (List DrawnPolygon × List LegendEntry)
  | [] => Except.ok ([], [])
  | r :: rest =>
    if dictGet sa r.label true then
      match r.x_coords with
      | [] => Except.error "IndexError: list index out of range"
      | x0 :: xtl =>
        match r.y_coords with
        | [] => Except.error "IndexError: list index out of range"
        | y0 :: ytl =>
          match drawAnnotations sa rest with
          | Except.error e => Except.error e
          | Except.ok (ps, ls) =>
            Except.ok
              (⟨(x0 :: xtl) ++ [x0], (y0 :: ytl) ++ [y0], r.color, 2, fillAlpha⟩ :: ps,
               legendOf r :: ls)
    else
      match drawAnnotations sa rest with
      | Except.error e => Except.error e
      | Except.ok (ps, ls) => Except.ok (ps, legendOf r :: ls)

/-- `display_dicom_with_annotation` in `viewer.py` (final `s` added to the
Lean name), restricted to its annotation/legend behavior; decoding and
rasterizing the DICOM pixel data is orthogonal to every claim about this
function.  `annotation_file` is the parse outcome of the file at
`annotation_path` (`none` when no path is given) and `sa` models the
`show_annotations` dict (`none` when absent).  The guard
`if annotation_path and show_annotations:` is Python truthiness: it runs the
annotation code only when a path is given AND the dict is non-empty. -/
def display_dicom_with_annotations
    (annotation_file : Option (Except String (List AnnotationObj)))
    (sa : Option (List (String × Bool))) : Except String RenderResult :=
  match annotation_file, sa with
  | some parsed, some (kv :: kvs) =>
    match load_annotations parsed with
    | (ws, recs) =>
      match drawAnnotations (kv :: kvs) recs with
      | Except.error e => Except.error e
      | Except.ok (ps, ls) => Except.ok ⟨ps, ls, ws⟩
  | _, _ => Except.ok ⟨[], [], []⟩

/-- First (and only) item of a DICOM `ViewCodeSequence` as `is_mlo_view`
reads it: the `CodeMeaning` attribute may be absent (`none`) or its access
may raise (`Except.error`). -/
structure ViewCodeEntry where
  CodeMeaning : Option (Except String String)

/-- The slice of a decoded DICOM object that `is_mlo_view` inspects: the
`ViewCodeSequence` attribute, absent (`none`), or present with a value whose
access may itself raise (`Except.error`). -/
structure Dicom where
  ViewCodeSequence : Option (Except String (List ViewCodeEntry))

/-- `is_mlo_view` in `viewer.py`: returns the warnings it emits and its
boolean result.  True only when the first entry of a present, non-empty
`ViewCodeSequence` has a `CodeMeaning` whose lower-cased text contains
`medio-lateral oblique` or `mlo`; any exception in the `try` block is caught,
warned about, and the function falls through to `False`. -/
def is_mlo_view (dcm : Dicom) : List String × Bool :=
  match dcm.ViewCodeSequence with
  | none => ([], false)
  | some (Except.error e) => (["Error checking MLO view: " ++ e], false)
  | some (Except.ok []) => ([], false)
  | some (Except.ok (entry :: _)) =>
    match entry.CodeMeaning with
    | none => ([], false)
    | some (Except.error e) => (["Error checking MLO view: " ++ e], false)
    | some (Except.ok cm) =>
      ([], pyContains (pyLower cm) "medio-lateral oblique" ||
           pyContains (pyLower cm) "mlo")

/-- One file met while `os.walk`-ing a directory tree: the directory part of
its path and its bare filename, in traversal order. -/
structure FileEntry where
  dir : String
  name : String
deriving DecidableEq, Repr

/-- Python `os.path.join(root, filename)` (POSIX separator). -/
def joinPath (e : FileEntry) : String := ⟨e.dir.data ++ ('/' :: e.name.data)⟩

/-- The filename filter in `extract_patient_json_mapping`: not hidden
(leading dot) and ending in `.json`. -/
def keepJson (name : String) : Bool :=
  !(pyStartsWith name ".") && pyEndsWith name ".json"

/-- One step of building `patient_json_dict`: append `p` to the list under
`k`, creating the key at the end of the (insertion-ordered) dict when new. -/
def addPath (d : List (String × List String)) (k : String) (p : String) :
    List (String × List String) :=
  if (d.lookup k).isSome then
    d.map (fun kv => if kv.1 = k then (kv.1, kv.2 ++ [p]) else kv)
  else d ++ [(k, [p])]

/-- `extract_patient_json_mapping` in `viewer.py`: walk the tree (modelled as
the list of files in traversal order), keep non-hidden `.json` files, then
group their full paths by the 7-character prefix of their basename into an
insertion-ordered dict. -/
def extract_patient_json_mapping (entries : List FileEntry) :
    List (String × List String) :=
  ((entries.filter fun e => keepJson e.name).map joinPath).foldl
    (fun d p => addPath d (pyTake (basename p) 7) p) []

/-- One DICOM file met while walking a patient's download directory, with
the outcome of `pydicom.dcmread` on it (`Except.error` when reading raises). -/
structure DicomFile where
  path : String
  name : String
  content : Except String Dicom

/-- The body of the per-file loop in `main` that builds a patient's image
set: skip non-`.dcm` names; a read error becomes a warning; an MLO-classified
file is kept only when `matching_annotations` (the patient's JSON files whose
basename 7-prefix equals the patient id) is non-empty, and it is paired with
`matching_annotations[0]`.  The accumulator is
(`mlo_images`, `mlo_annotations`, warnings). -/
def processDicomFile (selected : String) (jsonFiles : List String)
    (acc : List String × List String × List String) (f : DicomFile) :
    List String × List String × List String :=
  if pyEndsWith f.name ".dcm" then
    match f.content with
    | Except.error e =>
      (acc.1, acc.2.1,
       acc.2.2 ++ ["Error reading DICOM file " ++ f.name ++ ": " ++ e])
    | Except.ok dcm =>
      match is_mlo_view dcm with
      | (ws, mlo) =>
        if mlo then
          match jsonFiles.filter (fun j => selected == pyTake (basename j) 7) with
          | [] => (acc.1, acc.2.1, acc.2.2 ++ ws)
          | j :: _ => (acc.1 ++ [f.path], acc.2.1 ++ [j], acc.2.2 ++ ws)
        else (acc.1, acc.2.1, acc.2.2 ++ ws)
  else acc

/-- The `for root, dirs, files in os.walk(downloadPath)` loop of `main` that
fills `st.session_state.patient_images[selected_patient]`: fold
`processDicomFile` over the walked files in order. -/
def build_patient_image_set (selected : String) (jsonFiles : List String)
    (files : List DicomFile) : List String × List String × List String :=
  files.foldl (processDicomFile selected jsonFiles) ([], [], [])

/-- The closed polygon drawn for a visible record: the first coordinate is
repeated at the end of each coordinate list, the stroke is the record color
at `linewidth=2`, the fill at `alpha=0.2`. -/
def closePoly (r : AnnotationRecord) : DrawnPolygon :=
  ⟨r.x_coords ++ [r.x_coords.headD 0], r.y_coords ++ [r.y_coords.headD 0],
   r.color, 2, fillAlpha⟩

theorem drawAnnotations_ok (sa : List (String × Bool)) (recs : List AnnotationRecord)
    (ps : List DrawnPolygon) (ls : List LegendEntry)
    (h : drawAnnotations sa recs = Except.ok (ps, ls)) :
    ps = (recs.filter (fun r => dictGet sa r.label true)).map closePoly ∧
    ls = recs.map legendOf := by
  induction recs generalizing ps ls with
  | nil =>
    simp only [drawAnnotations, Except.ok.injEq, Prod.mk.injEq] at h
    simp [← h.1, ← h.2]
  | cons r rest ih =>
    cases hv : dictGet sa r.label true with
    | true =>
      cases hx : r.x_coords with
      | nil => simp [drawAnnotations, hv, hx] at h
      | cons x0 xtl =>
        cases hy : r.y_coords with
        | nil => simp [drawAnnotations, hv, hx, hy] at h
        | cons y0 ytl =>
          cases hd : drawAnnotations sa rest with
          | error e => simp [drawAnnotations, hv, hx, hy, hd] at h
          | ok pr =>
            obtain ⟨ps0, ls0⟩ := pr
            obtain ⟨hps, hls⟩ := ih ps0 ls0 hd
            simp only [drawAnnotations, hv, hx, hy, hd, if_true,
              Except.ok.injEq, Prod.mk.injEq] at h
            obtain ⟨h1, h2⟩ := h
            subst h1 h2
            refine ⟨?_, by simp [hls]⟩
            simp [List.filter_cons, hv, hps, closePoly, hx, hy]
    | false =>
      cases hd : drawAnnotations sa rest with
      | error e => simp [drawAnnotations, hv, hd] at h
      | ok pr =>
        obtain ⟨ps0, ls0⟩ := pr
        obtain ⟨hps, hls⟩ := ih ps0 ls0 hd
        simp only [drawAnnotations, hv, hd, Bool.false_eq_true, if_false,
          Except.ok.injEq, Prod.mk.injEq] at h
        obtain ⟨h1, h2⟩ := h
        subst h1 h2
        refine ⟨?_, by simp [hls]⟩
        simp [List.filter_cons, hv, hps]

theorem display_ok (parsed : List AnnotationObj) (kv : String × Bool)
    (kvs : List (String × Bool)) (res : RenderResult)
    (h : display_dicom_with_annotations (some (Except.ok parsed)) (some (kv :: kvs)) =
      Except.ok res) :
    res.polygons = ((parse_records parsed).filter
      (fun r => dictGet (kv :: kvs) r.label true)).map closePoly ∧
    res.legend = (parse_records parsed).map legendOf := by
  cases hd : drawAnnotations (kv :: kvs) (parse_records parsed) with
  | error e =>
    simp [display_dicom_with_annotations, load_annotations, hd] at h
  | ok pr =>
    obtain ⟨ps, ls⟩ := pr
    obtain ⟨hps, hls⟩ := drawAnnotations_ok (kv :: kvs) (parse_records parsed) ps ls hd
    simp only [display_dicom_with_annotations, load_annotations, hd,
      Except.ok.injEq] at h
    subst h
    exact ⟨hps, hls⟩

/-- Transcription of claim C3's wording for the loader output: one record per
object with a points list, in input order, `label` being *the object's label
field itself* (or `Unknown` when absent) and `color` the color field (or
`#FF0000`).  Kept separate from `parse_records` to compare the claim against
the code, which additionally strips the label. -/
def loadAnnotationsClaimed : List AnnotationObj → List AnnotationRecord
  | [] => []
  | a :: rest =>
    match a.cgPoints with
    | none => loadAnnotationsClaimed rest
    | some pts =>
      { x_coords := pts.map Prod.fst
        y_coords := pts.map Prod.snd
        label := a.label.getD "Unknown"
        color := a.color.getD "#FF0000" } :: loadAnnotationsClaimed rest

/-- The amended claim C3, transcribed: as claimed, except that a provided
label is stored with surrounding whitespace stripped. -/
def loadAnnotationsAmended : List AnnotationObj → List AnnotationRecord
  | [] => []
  | a :: rest =>
    match a.cgPoints with
    | none => loadAnnotationsAmended rest
    | some pts =>
      { x_coords := pts.map Prod.fst
        y_coords := pts.map Prod.snd
        label := pyStrip (a.label.getD "Unknown")
        color := a.color.getD "#FF0000" } :: loadAnnotationsAmended rest

/-- C3 (counterexample): the loader does not store the object's label field
verbatim — an object labeled " Mass " (with surrounding spaces) yields a
record labeled "Mass", so the output differs from the claimed one. -/
theorem c3_strip_counterexample :
    parse_records [⟨some [(0, 0)], some " Mass ", none⟩] ≠
      loadAnnotationsClaimed [⟨some [(0, 0)], some " Mass ", none⟩] ∧
    (parse_records [⟨some [(0, 0)], some " Mass ", none⟩]).map
      AnnotationRecord.label = ["Mass"] := by decide

/-- C3 (amended): the loader returns one record per input object containing a
points list, in input order, with x/y fields split in order, the label
whitespace-stripped (default "Unknown"), the color defaulted to "#FF0000";
objects without points yield no record, so a file whose elements all lack
points yields the empty list; and the concrete triangle example holds. -/
theorem c3_loader_refines_amended_spec (objs : List AnnotationObj) :
    parse_records objs = loadAnnotationsAmended objs ∧
    ((∀ a ∈ objs, a.cgPoints = none) → parse_records objs = []) ∧
    parse_records [⟨some [(0, 0), (1, 0), (1, 1)], none, none⟩] =
      [⟨[0, 1, 1], [0, 0, 1], "Unknown", "#FF0000"⟩] := by
  refine ⟨?_, ?_, by decide⟩
  · induction objs with
    | nil => rfl
    | cons a rest ih =>
      cases hpts : a.cgPoints with
      | none => simp [parse_records, loadAnnotationsAmended, hpts] at ih ⊢; exact ih
      | some pts =>
        simp [parse_records, loadAnnotationsAmended, hpts, mkRecord] at ih ⊢
        exact ih
  · intro hnone
    simp only [parse_records, List.filterMap_eq_nil_iff]
    intro a ha
    simp [hnone a ha]

/-- C3 witness: the amended theorem applied to a concrete all-points-missing
file yields the empty list. -/
theorem c3_loader_refines_amended_spec_witness :
    parse_records [⟨none, some "Mass", none⟩, ⟨none, none, some "#00FF00"⟩] = [] :=
  (c3_loader_refines_amended_spec
    [⟨none, some "Mass", none⟩, ⟨none, none, some "#00FF00"⟩]).2.1 (by decide)

/-- C8: any I/O or parse error while loading an annotation file yields a
user-visible warning and an empty record list — the function is total on the
error case, so the error never propagates to the caller. -/
theorem c8_loader_error_recovery (e : String) :
    load_annotations (Except.error e) =
      (["Error reading annotation file: " ++ e], []) := rfl

/-- C10: the loader strips surrounding whitespace from a provided label
(so " Mass " is stored as "Mass", and two labels equal up to surrounding
whitespace produce records with the same stored label); the "Unknown"
default is unaffected. -/
theorem c10_label_stripped (pts : List (Int × Int)) (l : String) (c : Option String) :
    (parse_records [⟨some pts, some l, c⟩]).map AnnotationRecord.label = [pyStrip l] ∧
    (parse_records [⟨some pts, none, c⟩]).map AnnotationRecord.label = ["Unknown"] ∧
    (∀ l2 : String, pyStrip l = pyStrip l2 →
      (parse_records [⟨some pts, some l, c⟩]).map AnnotationRecord.label =
        (parse_records [⟨some pts, some l2, c⟩]).map AnnotationRecord.label) ∧
    pyStrip " Mass " = "Mass" := by
  refine ⟨by simp [parse_records, mkRecord], ?_, ?_, by decide⟩
  · simp [parse_records, mkRecord]
    decide
  · intro l2 hl
    simp [parse_records, mkRecord, hl]

/-- C10 witness: two labels differing only in surrounding whitespace are
stored identically. -/
theorem c10_label_stripped_witness :
    (parse_records [⟨some [(0, 0)], some " Mass ", none⟩]).map
        AnnotationRecord.label =
      (parse_records [⟨some [(0, 0)], some "Mass ", none⟩]).map
        AnnotationRecord.label :=
  (c10_label_stripped [(0, 0)] " Mass " none).2.2.1 "Mass " (by decide)

/-- C1 (counterexample): with two loaded records sharing the single distinct
label "Mass", the rendered figure's legend holds two entries for that label,
not exactly one per distinct label. -/
theorem c1_legend_counterexample :
    (Except.map (fun res => res.legend.map LegendEntry.label)
        (display_dicom_with_annotations
          (some (Except.ok [⟨some [(0, 0)], some "Mass", none⟩,
                            ⟨some [(1, 1)], some "Mass", none⟩]))
          (some [("Mass", false)]))) = Except.ok ["Mass", "Mass"] ∧
    ((parse_records [⟨some [(0, 0)], some "Mass", none⟩,
                     ⟨some [(1, 1)], some "Mass", none⟩]).map
        AnnotationRecord.label).dedup = ["Mass"] := by decide

/-- C1 (amended): when an annotation file and a non-empty visibility map are
supplied and rendering succeeds, the legend holds exactly one colored patch
per loaded annotation record, in record order and carrying the record's
label and color — independently of whether each label's visibility is
enabled or disabled (the map's boolean values never influence the legend). -/
theorem c1_legend_entry_per_record (parsed : List AnnotationObj)
    (kv : String × Bool) (kvs : List (String × Bool)) (res : RenderResult)
    (h : display_dicom_with_annotations (some (Except.ok parsed))
        (some (kv :: kvs)) = Except.ok res) :
    res.legend = (parse_records parsed).map legendOf :=
  (display_ok parsed kv kvs res h).2

/-- C1 witness: the amended theorem at a concrete two-record file whose only
label is toggled off — both legend entries are still present. -/
theorem c1_legend_entry_per_record_witness :
    (RenderResult.mk []
        [⟨"#FF0000", fillAlpha, "#FF0000", "Mass"⟩,
         ⟨"#FF0000", fillAlpha, "#FF0000", "Mass"⟩] []).legend =
      (parse_records [⟨some [(0, 0)], some "Mass", none⟩,
                      ⟨some [(1, 1)], some "Mass", none⟩]).map legendOf :=
  c1_legend_entry_per_record
    [⟨some [(0, 0)], some "Mass", none⟩, ⟨some [(1, 1)], some "Mass", none⟩]
    ("Mass", false) [] _ (by decide)

/-- C2 (counterexample): supplying an annotation file together with an
*empty* visibility map draws nothing at all — the file loads one record whose
label is absent from the map (hence "default enabled" under the claim), yet
no polygon is drawn, because `if annotation_path and show_annotations:` is
false for an empty Python dict. -/
theorem c2_empty_map_counterexample :
    display_dicom_with_annotations
        (some (Except.ok [⟨some [(0, 0), (1, 0)], some "Mass", none⟩]))
        (some []) = Except.ok ⟨[], [], []⟩ ∧
    (parse_records [⟨some [(0, 0), (1, 0)], some "Mass", none⟩]).length = 1 ∧
    dictGet [] "Mass" true = true := by decide

/-- C2 (amended): when an annotation file and a *non-empty* visibility map
are supplied and rendering succeeds, the drawn polygons are exactly the
loaded records whose label maps to true — or is absent, absence defaulting to
enabled — each closed by repeating its first point as its last, stroked in
its record color at linewidth 2 and filled at 20% opacity; records whose
label maps to false are not drawn.  (With an empty map nothing is drawn.) -/
theorem c2_visible_polygons_drawn (parsed : List AnnotationObj)
    (kv : String × Bool) (kvs : List (String × Bool)) (res : RenderResult)
    (h : display_dicom_with_annotations (some (Except.ok parsed))
        (some (kv :: kvs)) = Except.ok res) :
    res.polygons = ((parse_records parsed).filter
      (fun r => dictGet (kv :: kvs) r.label true)).map closePoly :=
  (display_ok parsed kv kvs res h).1

/-- C2 witness: a two-record file with one label enabled and one disabled —
only the enabled record's polygon is drawn, closed, at linewidth 2 and
opacity `fillAlpha`. -/
theorem c2_visible_polygons_drawn_witness :
    (RenderResult.mk
        [⟨[0, 1, 2, 0], [0, 1, 0, 0], "#00FF00", 2, fillAlpha⟩]
        [⟨"#FF0000", fillAlpha, "#FF0000", "Mass"⟩,
         ⟨"#00FF00", fillAlpha, "#00FF00", "Calc"⟩] []).polygons =
      ((parse_records [⟨some [(0, 0)], some "Mass", none⟩,
                       ⟨some [(0, 0), (1, 1), (2, 0)], some "Calc", some "#00FF00"⟩]).filter
        (fun r => dictGet [("Mass", false), ("Calc", true)] r.label true)).map closePoly :=
  c2_visible_polygons_drawn
    [⟨some [(0, 0)], some "Mass", none⟩,
     ⟨some [(0, 0), (1, 1), (2, 0)], some "Calc", some "#00FF00"⟩]
    ("Mass", false) [("Calc", true)] _ (by decide)

/-- C4: the classifier returns true iff the DICOM object exposes a view-code
sequence whose first entry's code meaning contains "medio-lateral oblique" or
"mlo" as a case-insensitive substring (both sides lower-cased); concretely it
is true for "Medio-Lateral Oblique", false for "Cranio-Caudal", and false
when the view-code field is absent entirely. -/
theorem c4_mlo_iff :
    (∀ dcm : Dicom, (is_mlo_view dcm).2 = true ↔
      ∃ entry rest cm,
        dcm.ViewCodeSequence = some (Except.ok (entry :: rest)) ∧
        entry.CodeMeaning = some (Except.ok cm) ∧
        ((pyLower "medio-lateral oblique").data <:+: (pyLower cm).data ∨
         (pyLower "mlo").data <:+: (pyLower cm).data)) ∧
    (is_mlo_view ⟨some (Except.ok [⟨some (Except.ok "Medio-Lateral Oblique")⟩])⟩).2
      = true ∧
    (is_mlo_view ⟨some (Except.ok [⟨some (Except.ok "Cranio-Caudal")⟩])⟩).2
      = false ∧
    (is_mlo_view ⟨none⟩).2 = false := by
  refine ⟨?_, by decide, by decide, by decide⟩
  intro dcm
  obtain ⟨vcs⟩ := dcm
  have hm1 : pyLower "medio-lateral oblique" = "medio-lateral oblique" := by decide
  have hm2 : pyLower "mlo" = "mlo" := by decide
  cases vcs with
  | none => simp [is_mlo_view]
  | some exc =>
    cases exc with
    | error e => simp [is_mlo_view]
    | ok l =>
      cases l with
      | nil => simp [is_mlo_view]
      | cons entry rest =>
        obtain ⟨cmo⟩ := entry
        cases cmo with
        | none => simp [is_mlo_view]
        | some cexc =>
          cases cexc with
          | error e => simp [is_mlo_view]
          | ok cm => simp [is_mlo_view, pyContains, hm1, hm2]

/-- C9: any attribute-access error inside `is_mlo_view` — whether reading the
`ViewCodeSequence` value or the first entry's `CodeMeaning` — is caught,
logged as one warning, and the function returns false; it is total, so the
error never propagates. -/
theorem c9_classifier_error_recovery :
    (∀ (dcm : Dicom) (e : String),
        dcm.ViewCodeSequence = some (Except.error e) →
        is_mlo_view dcm = (["Error checking MLO view: " ++ e], false)) ∧
    (∀ (dcm : Dicom) (entry : ViewCodeEntry) (rest : List ViewCodeEntry)
        (e : String),
        dcm.ViewCodeSequence = some (Except.ok (entry :: rest)) →
        entry.CodeMeaning = some (Except.error e) →
        is_mlo_view dcm = (["Error checking MLO view: " ++ e], false)) := by
  constructor
  · intro dcm e h
    obtain ⟨vcs⟩ := dcm
    simp only at h
    subst h
    rfl
  · intro dcm entry rest e h1 h2
    obtain ⟨vcs⟩ := dcm
    simp only at h1
    subst h1
    simp [is_mlo_view, h2]

/-- C9 witness: a DICOM object whose view-code access raises is classified
false with the corresponding warning. -/
theorem c9_classifier_error_recovery_witness :
    is_mlo_view ⟨some (Except.error "Invalid VR")⟩ =
      (["Error checking MLO view: " ++ "Invalid VR"], false) :=
  c9_classifier_error_recovery.1 ⟨some (Except.error "Invalid VR")⟩
    "Invalid VR" rfl

theorem processDicomFile_cases (selected : String) (jsonFiles : List String)
    (acc : List String × List String × List String) (f : DicomFile) :
    ((processDicomFile selected jsonFiles acc f).1 = acc.1 ∧
     (processDicomFile selected jsonFiles acc f).2.1 = acc.2.1) ∨
    (∃ j js dcm,
      jsonFiles.filter (fun s => selected == pyTake (basename s) 7) = j :: js ∧
      pyEndsWith f.name ".dcm" = true ∧ f.content = Except.ok dcm ∧
      (is_mlo_view dcm).2 = true ∧
      (processDicomFile selected jsonFiles acc f).1 = acc.1 ++ [f.path] ∧
      (processDicomFile selected jsonFiles acc f).2.1 = acc.2.1 ++ [j]) := by
  by_cases hdcm : pyEndsWith f.name ".dcm" = true
  · cases hc : f.content with
    | error e => left; simp [processDicomFile, hdcm, hc]
    | ok dcm =>
      rcases hml : is_mlo_view dcm with ⟨ws, mlo⟩
      cases mlo with
      | false => left; simp [processDicomFile, hdcm, hc, hml]
      | true =>
        cases hf : jsonFiles.filter (fun s => selected == pyTake (basename s) 7) with
        | nil => left; simp [processDicomFile, hdcm, hc, hml, hf]
        | cons j js =>
          right
          refine ⟨j, js, dcm, rfl, hdcm, rfl, by rw [hml], ?_, ?_⟩
          · simp [processDicomFile, hdcm, hc, hml, hf]
          · simp [processDicomFile, hdcm, hc, hml, hf]
  · left; simp [processDicomFile, hdcm]

theorem processFold_images_mem (selected : String) (jsonFiles : List String)
    (files : List DicomFile) (acc : List String × List String × List String)
    (p : String)
    (h : p ∈ (files.foldl (processDicomFile selected jsonFiles) acc).1) :
    p ∈ acc.1 ∨ ∃ f ∈ files, f.path = p ∧ pyEndsWith f.name ".dcm" = true ∧
      ∃ dcm, f.content = Except.ok dcm ∧ (is_mlo_view dcm).2 = true ∧
      ∃ j ∈ jsonFiles, pyTake (basename j) 7 = selected := by
  induction files generalizing acc with
  | nil => exact Or.inl h
  | cons f fs ih =>
    simp only [List.foldl_cons] at h
    rcases ih (processDicomFile selected jsonFiles acc f) h with hin |
      ⟨g, hg, hrest⟩
    · rcases processDicomFile_cases selected jsonFiles acc f with ⟨h1, _⟩ |
        ⟨j, js, dcm, hf, hdcmext, hc, hml, h1, _⟩
      · rw [h1] at hin; exact Or.inl hin
      · rw [h1] at hin
        rcases List.mem_append.mp hin with hin | hin
        · exact Or.inl hin
        · have hp : p = f.path := by simpa using hin
          subst hp
          have hj : j ∈ jsonFiles.filter
              (fun s => selected == pyTake (basename s) 7) := by
            rw [hf]; exact List.mem_cons_self j js
          have hj2 := List.mem_filter.mp hj
          exact Or.inr ⟨f, List.mem_cons_self f fs, rfl, hdcmext, dcm, hc, hml,
            j, hj2.1, (eq_of_beq hj2.2).symm⟩
    · exact Or.inr ⟨g, List.mem_cons_of_mem f hg, hrest⟩

theorem processFold_pairing (selected : String) (jsonFiles : List String)
    (files : List DicomFile) (acc : List String × List String × List String)
    (hlen : acc.1.length = acc.2.1.length)
    (hmem : ∀ a ∈ acc.2.1,
      (jsonFiles.filter (fun s => selected == pyTake (basename s) 7)).head? =
        some a) :
    (files.foldl (processDicomFile selected jsonFiles) acc).1.length =
      (files.foldl (processDicomFile selected jsonFiles) acc).2.1.length ∧
    ∀ a ∈ (files.foldl (processDicomFile selected jsonFiles) acc).2.1,
      (jsonFiles.filter (fun s => selected == pyTake (basename s) 7)).head? =
        some a := by
  induction files generalizing acc with
  | nil => exact ⟨hlen, hmem⟩
  | cons f fs ih =>
    simp only [List.foldl_cons]
    rcases processDicomFile_cases selected jsonFiles acc f with ⟨h1, h2⟩ |
      ⟨j, js, dcm, hf, _, _, _, h1, h2⟩
    · exact ih _ (by rw [h1, h2]; exact hlen) (by rw [h2]; exact hmem)
    · refine ih _ (by rw [h1, h2]; simp [hlen]) ?_
      intro a ha
      rw [h2] at ha
      rcases List.mem_append.mp ha with ha | ha
      · exact hmem a ha
      · have : a = j := by simpa using ha
        subst this
        rw [hf]
        rfl

/-- C5: a DICOM file path enters a patient's image set only if the file has
a `.dcm` name, was read successfully, was classified as the MLO view, and at
least one of the patient's annotation files has a basename whose 7-character
prefix equals the patient id. -/
theorem c5_image_set_invariant (selected : String) (jsonFiles : List String)
    (files : List DicomFile) (p : String)
    (h : p ∈ (build_patient_image_set selected jsonFiles files).1) :
    ∃ f ∈ files, f.path = p ∧ pyEndsWith f.name ".dcm" = true ∧
      ∃ dcm, f.content = Except.ok dcm ∧ (is_mlo_view dcm).2 = true ∧
      ∃ j ∈ jsonFiles, pyTake (basename j) 7 = selected := by
  rcases processFold_images_mem selected jsonFiles files ([], [], []) p h with
    h0 | hok
  · cases h0
  · exact hok

/-- C5 witness: one qualifying MLO file with one matching annotation file is
stored, and the invariant's conditions hold for it. -/
theorem c5_image_set_invariant_witness :
    ∃ f ∈ [DicomFile.mk "img/a.dcm" "a.dcm"
        (Except.ok ⟨some (Except.ok [⟨some (Except.ok "MLO view")⟩])⟩)],
      f.path = "img/a.dcm" ∧ pyEndsWith f.name ".dcm" = true ∧
      ∃ dcm, f.content = Except.ok dcm ∧ (is_mlo_view dcm).2 = true ∧
      ∃ j ∈ ["d/1234567_a.json"], pyTake (basename j) 7 = "1234567" :=
  c5_image_set_invariant "1234567" ["d/1234567_a.json"]
    [DicomFile.mk "img/a.dcm" "a.dcm"
      (Except.ok ⟨some (Except.ok [⟨some (Except.ok "MLO view")⟩])⟩)]
    "img/a.dcm" (by decide)

/-- C6: a patient's stored image-path and annotation-path lists always have
equal length (index correspondence), and every stored annotation path is the
*first* annotation file of the patient's list that matches the patient-id
prefix — so with several annotation files every entry is that same first
file. -/
theorem c6_parallel_lists_first_match (selected : String)
    (jsonFiles : List String) (files : List DicomFile) :
    (build_patient_image_set selected jsonFiles files).1.length =
      (build_patient_image_set selected jsonFiles files).2.1.length ∧
    ∀ a ∈ (build_patient_image_set selected jsonFiles files).2.1,
      (jsonFiles.filter (fun s => selected == pyTake (basename s) 7)).head? =
        some a :=
  processFold_pairing selected jsonFiles files ([], [], []) rfl
    (by intro a ha; cases ha)

/-- C6 witness: a patient with two annotation files and two qualifying MLO
images — the stored annotation entry is the first matching file. -/
theorem c6_parallel_lists_first_match_witness :
    (["d/1234567_a.json", "d/1234567_b.json"].filter
        (fun s => "1234567" == pyTake (basename s) 7)).head? =
      some "d/1234567_a.json" :=
  (c6_parallel_lists_first_match "1234567"
      ["d/1234567_a.json", "d/1234567_b.json"]
      [DicomFile.mk "img/a.dcm" "a.dcm"
        (Except.ok ⟨some (Except.ok [⟨some (Except.ok "MLO view")⟩])⟩),
       DicomFile.mk "img/b.dcm" "b.dcm"
        (Except.ok ⟨some (Except.ok [⟨some (Except.ok "medio-lateral oblique")⟩])⟩)]).2
    "d/1234567_a.json" (by decide)

theorem lookup_map_update (d : List (String × List String)) (k q p : String) :
    (d.map (fun kv => if kv.1 = k then (kv.1, kv.2 ++ [p]) else kv)).lookup q =
      (d.lookup q).map (fun xs => if q = k then xs ++ [p] else xs) := by
  induction d with
  | nil => rfl
  | cons kv rest ih =>
    obtain ⟨k0, v0⟩ := kv
    by_cases hq : q = k0
    · subst hq
      by_cases h0 : q = k
      · subst h0; simp [List.lookup_cons]
      · simp [List.lookup_cons, h0]
    · by_cases h0 : k0 = k
      · subst h0
        simp only [List.map_cons, if_pos rfl]
        simp [List.lookup_cons, beq_false_of_ne hq, ih]
      · simp only [List.map_cons, if_neg h0]
        simp [List.lookup_cons, beq_false_of_ne hq, ih]

theorem lookup_addPath (d : List (String × List String)) (k q p : String) :
    (addPath d k p).lookup q =
      if q = k then
        match d.lookup k with
        | none => some [p]
        | some xs => some (xs ++ [p])
      else d.lookup q := by
  by_cases hex : (d.lookup k).isSome
  · obtain ⟨xs, hxs⟩ := Option.isSome_iff_exists.mp hex
    rw [addPath, if_pos hex, lookup_map_update, hxs]
    by_cases hq : q = k
    · subst hq; rw [hxs]; simp
    · simp [hq]
  · have hnone : d.lookup k = none := Option.not_isSome_iff_eq_none.mp hex
    rw [addPath, if_neg hex, List.lookup_append, hnone]
    by_cases hq : q = k
    · subst hq; simp [hnone, List.lookup_cons]
    · simp [hq, List.lookup_cons, beq_false_of_ne hq]

/-- The value a grouped mapping associates with a key, given the list of all
qualifying items for that key: absent when the list is empty, otherwise the
list itself. -/
def combineOpt (o : Option (List String)) (ps : List String) :
    Option (List String) :=
  match o with
  | some xs => some (xs ++ ps)
  | none => if ps.isEmpty then none else some ps

theorem foldAdd_lookup (l : List String) (d : List (String × List String))
    (k : String) :
    (l.foldl (fun d p => addPath d (pyTake (basename p) 7) p) d).lookup k =
      combineOpt (d.lookup k)
        (l.filter (fun p => pyTake (basename p) 7 == k)) := by
  induction l generalizing d with
  | nil => cases hd : d.lookup k <;> simp [combineOpt, hd]
  | cons p l ih =>
    simp only [List.foldl_cons]
    rw [ih, lookup_addPath]
    by_cases hk : pyTake (basename p) 7 = k
    · rw [if_pos hk.symm, hk]
      rw [List.filter_cons_of_pos (by simpa using hk)]
      cases hd : d.lookup k with
      | none => simp [combineOpt]
      | some xs => simp [combineOpt, List.append_assoc]
    · rw [if_neg (fun h => hk h.symm)]
      rw [List.filter_cons_of_neg (by simpa using hk)]

/-- C7: the patient index maps a key `k` to exactly the full paths of the
non-hidden `.json` files (in traversal order) whose basename's 7-character
prefix is `k` — absent when there is no such file; every path stored under
`k` has a basename starting with `k`; and the concrete 4-file example yields
exactly the two expected keys with two and one paths. -/
theorem c7_patient_mapping (entries : List FileEntry) (k : String) :
    (extract_patient_json_mapping entries).lookup k =
      combineOpt none
        (((entries.filter fun e => keepJson e.name).map joinPath).filter
          (fun p => pyTake (basename p) 7 == k)) ∧
    (∀ ps, (extract_patient_json_mapping entries).lookup k = some ps →
      ∀ p ∈ ps, pyStartsWith (basename p) k = true) ∧
    extract_patient_json_mapping
      [⟨"root", "1234567_a.json"⟩, ⟨"root", "1234567_b.json"⟩,
       ⟨"root", "9999999.json"⟩, ⟨"root", ".DS_Store"⟩] =
      [("1234567", ["root/1234567_a.json", "root/1234567_b.json"]),
       ("9999999", ["root/9999999.json"])] := by
  have hmain : (extract_patient_json_mapping entries).lookup k =
      combineOpt none
        (((entries.filter fun e => keepJson e.name).map joinPath).filter
          (fun p => pyTake (basename p) 7 == k)) := by
    rw [extract_patient_json_mapping, foldAdd_lookup]
    rfl
  refine ⟨hmain, ?_, by decide⟩
  intro ps hps p hp
  rw [hmain, combineOpt] at hps
  by_cases hemp : (((entries.filter fun e => keepJson e.name).map
      joinPath).filter (fun p => pyTake (basename p) 7 == k)).isEmpty
  · rw [if_pos hemp] at hps; cases hps
  · rw [if_neg hemp] at hps
    obtain rfl : ps = ((entries.filter fun e => keepJson e.name).map
        joinPath).filter (fun p => pyTake (basename p) 7 == k) :=
      (Option.some.injEq ..▸ hps).symm
    have hpf := (List.mem_filter.mp hp).2
    have hkp : pyTake (basename p) 7 = k := eq_of_beq hpf
    have hpre : k.data <+: (basename p).data := by
      rw [← hkp, pyTake]
      exact List.take_prefix 7 (basename p).data
    rw [pyStartsWith, List.isPrefixOf_iff_prefix]
    exact hpre

/-- C7 witness: a stored path's basename starts with its key. -/
theorem c7_patient_mapping_witness :
    pyStartsWith (basename "root/1234567_a.json") "1234567" = true :=
  (c7_patient_mapping
      [⟨"root", "1234567_a.json"⟩, ⟨"root", "1234567_b.json"⟩,
       ⟨"root", "9999999.json"⟩, ⟨"root", ".DS_Store"⟩] "1234567").2.1
    ["root/1234567_a.json", "root/1234567_b.json"] (by decide)
    "root/1234567_a.json" (by decide)
